import Mathlib

/-!
Shallow embedding of the Plutus real-time fraud pipeline core:
the Redis-backed entity history store and feature engine
(`services/fraud_api/feature_engine.py`), the stream consumer harness
(`services/fraud_api/consumer.py`), and the HTTP prediction endpoint's
decision policy (`api/app.py`).

Conventions of the embedding:
- Timestamps are rational numbers of epoch seconds (`datetime.timestamp()`
  in the source).  The calendar-derived attributes `hour` and `weekday`
  of an instant are carried as separate fields of the transaction record,
  abstracting ISO-8601 parsing.
- Currency amounts and probabilities are rationals; Python's
  `round(x, 2)` is modelled as round-half-to-even at two decimals.
- Redis keys are modelled as total functions from the key's identifying
  string; TTLs are modelled by storing an absolute expiry instant next to
  each value, and every read takes the wall-clock instant `now` at which
  the Redis call executes: a value is visible only while `now < expiry`.
- The sorted set holding the per-user time index (`user:<id>`) is created
  by `ZADD` with no `EXPIRE` in the source, so the model gives it no
  expiry field.
-/

/-- A transaction event as consumed from the stream
(`transaction_id, user_id, timestamp, amount, merchant_category,
payment_method, country_code` in `feature_engine.py`).  `ts` is the epoch
value of the ISO timestamp; `hour` and `weekday` are the instant's
calendar attributes (`timestamp.hour`, `timestamp.weekday()`). -/
structure Txn where
  transaction_id : String
  user_id : String
  ts : ℚ
  hour : ℕ
  weekday : ℕ
  amount : ℚ
  merchant_category : String
  payment_method : String
  country_code : String
deriving DecidableEq, Repr

/-- The `user:<id>:last` snapshot stored by `_store_transaction`
(timestamp, country_code, merchant_category, amount of the most recently
appended transaction). -/
structure LastSnap where
  ts : ℚ
  country_code : String
  merchant_category : String
  amount : ℚ
deriving DecidableEq, Repr

/-- The Redis state used by `FeatureEngine`: the per-user sorted set
`user:<id>` (member transaction id, score = epoch timestamp; never given
a TTL by the source), the body cache `txn:<id>` (`SETEX`, value with
absolute expiry), the last-seen snapshot `user:<id>:last` (`SETEX`) and
the seen-merchant set `user:<id>:merchants` (`SADD` + `EXPIRE`). -/
structure HistoryStore where
  index : String → List (String × ℚ)
  bodies : String → Option (Txn × ℚ)
  lastSeen : String → Option (LastSnap × ℚ)
  merchants : String → Option (List String × ℚ)

/-- A Redis instance with no data. -/
def emptyStore : HistoryStore :=
  { index := fun _ => [], bodies := fun _ => none,
    lastSeen := fun _ => none, merchants := fun _ => none }

/-- `timedelta(days=7).total_seconds()`: the retention horizon. -/
def HORIZON : ℚ := 604800

/-- `ZADD key {member: score}`: sets the member's score, inserting the
member if absent.  Modelled as remove-then-append; only the
score-multiset of the list is ever observed. -/
def zaddList (l : List (String × ℚ)) (m : String) (sc : ℚ) :
    List (String × ℚ) :=
  l.filter (fun e => !(e.1 == m)) ++ [(m, sc)]

/-- `ZRANGEBYSCORE key mn mx`: the members whose score lies in the
closed interval `[mn, mx]` (Redis range bounds are inclusive). -/
def zrangebyscore (s : HistoryStore) (key : String) (mn mx : ℚ) :
    List String :=
  ((s.index key).filter (fun e => decide (mn ≤ e.2) && decide (e.2 ≤ mx))).map
    Prod.fst

/-- `GET txn:<id>` at wall-clock `now`: the cached body, `none` when the
key was never set or its TTL has elapsed. -/
def getBody (s : HistoryStore) (now : ℚ) (id : String) : Option Txn :=
  match s.bodies id with
  | some (t, exp) => if now < exp then some t else none
  | none => none

/-- `GET user:<id>:last` at wall-clock `now`. -/
def getLast (s : HistoryStore) (now : ℚ) (uid : String) : Option LastSnap :=
  match s.lastSeen uid with
  | some (l, exp) => if now < exp then some l else none
  | none => none

/-- The live contents of `user:<id>:merchants` at wall-clock `now`
(an expired or missing key reads as the empty set). -/
def getMerchants (s : HistoryStore) (now : ℚ) (uid : String) : List String :=
  match s.merchants uid with
  | some (ms, exp) => if now < exp then ms else []
  | none => []

/-- `SISMEMBER user:<id>:merchants m` at wall-clock `now`. -/
def sismember (s : HistoryStore) (now : ℚ) (uid m : String) : Bool :=
  m ∈ getMerchants s now uid

/-- `FeatureEngine._store_transaction`, executed at wall-clock `now`:
`SETEX txn:<id> 7d body`; `ZADD user:<id> {txn_id: ts}` (no expiry);
`SETEX user:<id>:last 7d snapshot`; `SADD user:<id>:merchants category`
followed by `EXPIRE ... 7d`. -/
def store_transaction (s : HistoryStore) (now : ℚ) (t : Txn) : HistoryStore :=
  { index := fun u =>
      if u = t.user_id then zaddList (s.index u) t.transaction_id t.ts
      else s.index u,
    bodies := fun k =>
      if k = t.transaction_id then some (t, now + HORIZON) else s.bodies k,
    lastSeen := fun u =>
      if u = t.user_id then
        some (⟨t.ts, t.country_code, t.merchant_category, t.amount⟩,
              now + HORIZON)
      else s.lastSeen u,
    merchants := fun u =>
      if u = t.user_id then
        let cur := getMerchants s now u
        some ((if t.merchant_category ∈ cur then cur
               else cur ++ [t.merchant_category]), now + HORIZON)
      else s.merchants u }

/-- Round-half-to-even to an integer (the tie-breaking rule of Python's
builtin `round`). -/
def roundHalfEven (q : ℚ) : ℤ :=
  let f := ⌊q⌋
  let frac := q - f
  if frac < 1 / 2 then f
  else if 1 / 2 < frac then f + 1
  else if Even f then f else f + 1

/-- Python's `round(x, 2)`. -/
def round2 (q : ℚ) : ℚ := (roundHalfEven (q * 100) : ℚ) / 100

/-- The feature dictionary returned by `FeatureEngine.enrich`. -/
structure Features where
  ts : ℚ
  amount : ℚ
  merchant_category : String
  payment_method : String
  country_code : String
  txn_count_1h : ℕ
  txn_count_24h : ℕ
  avg_amount_7d : ℚ
  amount_deviation : ℚ
  time_since_last_txn : ℚ
  is_night : ℕ
  is_weekend : ℕ
  new_merchant_flag : ℕ
  geo_jump : ℕ
  high_amount_flag : ℕ
deriving DecidableEq, Repr

/-- `FeatureEngine.enrich`, executed at wall-clock `now`: all history
reads use the pre-call store `s`; `_store_transaction` runs only after
every feature has been computed, and the resulting store is returned as
the second component. -/
def enrich (s : HistoryStore) (now : ℚ) (txn : Txn) : Features × HistoryStore :=
  let user_id := txn.user_id
  let T := txn.ts
  let amount := txn.amount
  let hour := txn.hour
  let is_night : ℕ := if hour ≥ 22 ∨ hour ≤ 6 then 1 else 0
  let is_weekend : ℕ := if txn.weekday ≥ 5 then 1 else 0
  let one_hour_ago := T - 3600
  let one_day_ago := T - 86400
  let seven_days_ago := T - 604800
  let txn_ids_1h := zrangebyscore s user_id one_hour_ago T
  let txn_ids_24h := zrangebyscore s user_id one_day_ago T
  let txn_ids_7d := zrangebyscore s user_id seven_days_ago T
  let txn_count_1h := txn_ids_1h.length
  let txn_count_24h := txn_ids_24h.length
  let amounts_7d := txn_ids_7d.filterMap
    (fun i => (getBody s now i).map Txn.amount)
  let avg_amount_7d :=
    if amounts_7d.isEmpty then amount
    else amounts_7d.sum / (amounts_7d.length : ℚ)
  let amount_deviation := |amount - avg_amount_7d|
  let high_amount_flag : ℕ := if amount > avg_amount_7d * 3 then 1 else 0
  let last_txn_data := getLast s now user_id
  let time_since_last_txn :=
    match last_txn_data with
    | some last => (T - last.ts) / 60
    | none => 99999
  let new_merchant_flag : ℕ :=
    if sismember s now user_id txn.merchant_category then 0 else 1
  let geo_jump : ℕ :=
    match last_txn_data with
    | some last => if last.country_code ≠ txn.country_code then 1 else 0
    | none => 0
  let s1 := store_transaction s now txn
  ({ ts := T, amount := amount,
     merchant_category := txn.merchant_category,
     payment_method := txn.payment_method,
     country_code := txn.country_code,
     txn_count_1h := txn_count_1h, txn_count_24h := txn_count_24h,
     avg_amount_7d := round2 avg_amount_7d,
     amount_deviation := round2 amount_deviation,
     time_since_last_txn := round2 time_since_last_txn,
     is_night := is_night, is_weekend := is_weekend,
     new_merchant_flag := new_merchant_flag, geo_jump := geo_jump,
     high_amount_flag := high_amount_flag }, s1)

/-- The spec's two-phase reading of enrichment (§4.2/§9): the pure
feature computation over the pre-event history snapshot.  Every read is
against the store `s` passed in; nothing here mutates. -/
def compute_features (s : HistoryStore) (now : ℚ) (txn : Txn) : Features :=
  let user_id := txn.user_id
  let T := txn.ts
  let amount := txn.amount
  let hour := txn.hour
  let is_night : ℕ := if hour ≥ 22 ∨ hour ≤ 6 then 1 else 0
  let is_weekend : ℕ := if txn.weekday ≥ 5 then 1 else 0
  let txn_ids_1h := zrangebyscore s user_id (T - 3600) T
  let txn_ids_24h := zrangebyscore s user_id (T - 86400) T
  let txn_ids_7d := zrangebyscore s user_id (T - 604800) T
  let amounts_7d := txn_ids_7d.filterMap
    (fun i => (getBody s now i).map Txn.amount)
  let avg_amount_7d :=
    if amounts_7d.isEmpty then amount
    else amounts_7d.sum / (amounts_7d.length : ℚ)
  let last_txn_data := getLast s now user_id
  { ts := T, amount := amount,
    merchant_category := txn.merchant_category,
    payment_method := txn.payment_method,
    country_code := txn.country_code,
    txn_count_1h := txn_ids_1h.length, txn_count_24h := txn_ids_24h.length,
    avg_amount_7d := round2 avg_amount_7d,
    amount_deviation := round2 |amount - avg_amount_7d|,
    time_since_last_txn := round2 (match last_txn_data with
      | some last => (T - last.ts) / 60
      | none => 99999),
    is_night := is_night, is_weekend := is_weekend,
    new_merchant_flag :=
      if sismember s now user_id txn.merchant_category then 0 else 1,
    geo_jump := match last_txn_data with
      | some last => if last.country_code ≠ txn.country_code then 1 else 0
      | none => 0,
    high_amount_flag := if amount > avg_amount_7d * 3 then 1 else 0 }

/-- C5: `enrich` is exactly the spec's two-phase contract — the returned
feature vector is the pure `compute_features` of the store as it was
before the call, and the only mutation is the trailing
`_store_transaction`; the transaction being enriched is therefore never
visible to its own feature reads. -/
theorem enrich_two_phase (s : HistoryStore) (now : ℚ) (txn : Txn) :
    enrich s now txn = (compute_features s now txn, store_transaction s now txn) :=
  rfl

/-- The 7-day average exactly as `enrich` computes it before any
rounding: the mean of the cached amounts of the 7-day window ids, or the
current amount when no cached amount survives. -/
def avg7dUnrounded (s : HistoryStore) (now : ℚ) (txn : Txn) : ℚ :=
  let amounts_7d := (zrangebyscore s txn.user_id (txn.ts - 604800) txn.ts).filterMap
    (fun i => (getBody s now i).map Txn.amount)
  if amounts_7d.isEmpty then txn.amount
  else amounts_7d.sum / (amounts_7d.length : ℚ)

/-- C9: the returned `high_amount_flag` is 1 exactly when the amount
exceeds three times the **unrounded** 7-day average; the two-decimal
rounding applied to the returned `avg_amount_7d`, `amount_deviation` and
`time_since_last_txn` fields happens after the flag is decided and never
feeds into it. -/
theorem high_amount_on_unrounded (s : HistoryStore) (now : ℚ) (txn : Txn) :
    ((enrich s now txn).1.high_amount_flag = 1 ↔
      txn.amount > 3 * avg7dUnrounded s now txn) ∧
    (enrich s now txn).1.avg_amount_7d = round2 (avg7dUnrounded s now txn) := by
  have h : (enrich s now txn).1.high_amount_flag =
      if txn.amount > avg7dUnrounded s now txn * 3 then 1 else 0 := rfl
  refine ⟨?_, rfl⟩
  rw [h]
  rw [mul_comm (avg7dUnrounded s now txn) 3]
  split_ifs with hgt <;> simp [hgt]

/-- The transaction ids of the entity's 7-day window, exactly as
`enrich` fetches them. -/
def windowIds7d (s : HistoryStore) (txn : Txn) : List String :=
  zrangebyscore s txn.user_id (txn.ts - 604800) txn.ts

/-- The 7-day window ids whose cached body is still present at
wall-clock `now` (a `SETEX` body may expire before the id leaves the
window). -/
def presentIds (s : HistoryStore) (now : ℚ) (txn : Txn) : List String :=
  (windowIds7d s txn).filter (fun i => (getBody s now i).isSome)

/-- The cached amount of an id whose body is present (0 as a default for
the total function; only applied to present ids). -/
def cachedAmount (s : HistoryStore) (now : ℚ) (i : String) : ℚ :=
  ((getBody s now i).map Txn.amount).getD 0

lemma filterMap_body_eq (s : HistoryStore) (now : ℚ) (l : List String) :
    l.filterMap (fun i => (getBody s now i).map Txn.amount) =
      (l.filter (fun i => (getBody s now i).isSome)).map (cachedAmount s now) := by
  induction l with
  | nil => rfl
  | cons a l ih =>
    cases hb : getBody s now a with
    | none => simp [List.filterMap_cons, List.filter_cons, hb, ih, cachedAmount]
    | some b => simp [List.filterMap_cons, List.filter_cons, hb, ih, cachedAmount]

/-- C10: the returned `avg_amount_7d` is the (rounded) mean over only
those 7-day-window ids whose cached body is still present — an id whose
body expired is silently skipped, so the mean's denominator is the count
of surviving bodies (never more than the window's id count), and when no
body survives the average falls back to the current amount. -/
theorem avg_over_present_bodies (s : HistoryStore) (now : ℚ) (txn : Txn) :
    (enrich s now txn).1.avg_amount_7d =
      round2 (if (presentIds s now txn).isEmpty then txn.amount
        else ((presentIds s now txn).map (cachedAmount s now)).sum /
          ((presentIds s now txn).length : ℚ)) ∧
    (presentIds s now txn).length ≤ (windowIds7d s txn).length := by
  constructor
  · have h : (enrich s now txn).1.avg_amount_7d =
        round2 (if ((windowIds7d s txn).filterMap
            (fun i => (getBody s now i).map Txn.amount)).isEmpty then txn.amount
          else ((windowIds7d s txn).filterMap
              (fun i => (getBody s now i).map Txn.amount)).sum /
            (((windowIds7d s txn).filterMap
              (fun i => (getBody s now i).map Txn.amount)).length : ℚ)) := rfl
    rw [h, filterMap_body_eq]
    by_cases hp : presentIds s now txn = [] <;>
      simp [presentIds, hp, List.isEmpty_iff]
  · exact List.length_filter_le _ _

lemma zaddList_idem (l : List (String × ℚ)) (m : String) (sc : ℚ) :
    zaddList (zaddList l m sc) m sc = zaddList l m sc := by
  unfold zaddList
  rw [List.filter_append]
  have h1 : (l.filter (fun e => !(e.1 == m))).filter (fun e => !(e.1 == m)) =
      l.filter (fun e => !(e.1 == m)) :=
    List.filter_eq_self.mpr (fun e he => (List.mem_filter.mp he).2)
  have h2 : (([(m, sc)] : List (String × ℚ)).filter
      (fun e => !(e.1 == m))) = [] := by simp
  rw [h1, h2, List.append_nil]

lemma st_index (s : HistoryStore) (now : ℚ) (t : Txn) (u : String) :
    (store_transaction s now t).index u =
      if u = t.user_id then zaddList (s.index u) t.transaction_id t.ts
      else s.index u := rfl

lemma st_bodies (s : HistoryStore) (now : ℚ) (t : Txn) (k : String) :
    (store_transaction s now t).bodies k =
      if k = t.transaction_id then some (t, now + HORIZON)
      else s.bodies k := rfl

lemma st_lastSeen (s : HistoryStore) (now : ℚ) (t : Txn) (u : String) :
    (store_transaction s now t).lastSeen u =
      if u = t.user_id then
        some (⟨t.ts, t.country_code, t.merchant_category, t.amount⟩,
          now + HORIZON)
      else s.lastSeen u := rfl

lemma st_merchants (s : HistoryStore) (now : ℚ) (t : Txn) (u : String) :
    (store_transaction s now t).merchants u =
      if u = t.user_id then
        some ((if t.merchant_category ∈ getMerchants s now u then
            getMerchants s now u
          else getMerchants s now u ++ [t.merchant_category]),
          now + HORIZON)
      else s.merchants u := rfl

lemma HistoryStore.ext (a b : HistoryStore) (h1 : a.index = b.index)
    (h2 : a.bodies = b.bodies) (h3 : a.lastSeen = b.lastSeen)
    (h4 : a.merchants = b.merchants) : a = b := by
  cases a; cases b; simp_all

/-- C6: redelivery is idempotent-safe at the store level — appending the
same transaction a second time (same id, same fields, same instant)
leaves the time index, the body cache, the last-seen snapshot and the
seen-merchant set exactly as the first append left them.  (A later
redelivery additionally refreshes the `SETEX`/`EXPIRE` deadlines but
stores the same values.) -/
theorem store_transaction_idempotent (s : HistoryStore) (now : ℚ) (t : Txn) :
    store_transaction (store_transaction s now t) now t =
      store_transaction s now t := by
  have hfresh : now < now + HORIZON := by unfold HORIZON; linarith
  have hg : getMerchants (store_transaction s now t) now t.user_id =
      (if t.merchant_category ∈ getMerchants s now t.user_id then
        getMerchants s now t.user_id
      else getMerchants s now t.user_id ++ [t.merchant_category]) := by
    have hscrut := st_merchants s now t t.user_id
    rw [if_pos rfl] at hscrut
    simp [getMerchants, hscrut, hfresh]
  refine HistoryStore.ext _ _ (funext fun u => ?_) (funext fun k => ?_)
    (funext fun u => ?_) (funext fun u => ?_)
  · simp only [st_index]
    by_cases hu : u = t.user_id <;> simp [hu, zaddList_idem]
  · simp only [st_bodies]
    by_cases hk : k = t.transaction_id <;> simp [hk]
  · simp only [st_lastSeen]
    by_cases hu : u = t.user_id <;> simp [hu]
  · simp only [st_merchants]
    by_cases hu : u = t.user_id
    · rw [hu, if_pos rfl, if_pos rfl, hg]
      by_cases hm : t.merchant_category ∈ getMerchants s now t.user_id <;>
        simp [hm]
    · simp [hu]

/-- An entity with no data at all in the store: empty time index, no
last-seen snapshot, no seen-merchant set. -/
def noHistory (s : HistoryStore) (uid : String) : Prop :=
  s.index uid = [] ∧ s.lastSeen uid = none ∧ s.merchants uid = none

instance (s : HistoryStore) (uid : String) : Decidable (noHistory s uid) := by
  unfold noHistory; infer_instance

lemma round2_intCast (n : ℤ) : round2 (n : ℚ) = (n : ℚ) := by
  have h : ((n : ℚ) * 100) = ((n * 100 : ℤ) : ℚ) := by push_cast; ring
  unfold round2 roundHalfEven
  rw [h, Int.floor_intCast]
  norm_num

/-- C7 (amended): on an entity with no prior history, `enrich` returns
the sentinel `time_since_last_txn = 99999.0`, `new_merchant_flag = 1`,
`geo_jump = 0`, `avg_amount_7d` equal to the transaction's own amount
rounded to two decimals (the source rounds the returned average), and
`amount_deviation = 0`. -/
theorem cold_start (s : HistoryStore) (now : ℚ) (t : Txn)
    (h : noHistory s t.user_id) :
    (enrich s now t).1.time_since_last_txn = 99999 ∧
    (enrich s now t).1.new_merchant_flag = 1 ∧
    (enrich s now t).1.geo_jump = 0 ∧
    (enrich s now t).1.avg_amount_7d = round2 t.amount ∧
    (enrich s now t).1.amount_deviation = 0 := by
  obtain ⟨hi, hl, hm⟩ := h
  have hz : ∀ mn mx : ℚ, zrangebyscore s t.user_id mn mx = [] := by
    intro mn mx; simp [zrangebyscore, hi]
  have hlast : getLast s now t.user_id = none := by simp [getLast, hl]
  have hmem : sismember s now t.user_id t.merchant_category = false := by
    simp [sismember, getMerchants, hm]
  have h9 : round2 ((99999 : ℤ) : ℚ) = ((99999 : ℤ) : ℚ) := round2_intCast 99999
  have h0 : round2 ((0 : ℤ) : ℚ) = ((0 : ℤ) : ℚ) := round2_intCast 0
  norm_num at h9 h0
  simp [enrich, hz, hlast, hmem, h9, h0]

/-- Concrete cold-start transaction whose amount, 10.001, needs more
than two decimals. -/
def txC7 : Txn :=
  { transaction_id := "t7", user_id := "u7", ts := 0, hour := 12,
    weekday := 2, amount := 10001 / 1000, merchant_category := "grocery",
    payment_method := "card", country_code := "US" }

/-- C7 counterexample to the claim as stated: for the no-history entity
`u7` and an amount of 10.001, the returned `avg_amount_7d` is the
rounded 10.0, not the transaction's amount. -/
theorem cold_start_counterexample :
    noHistory emptyStore txC7.user_id ∧
    (enrich emptyStore 0 txC7).1.avg_amount_7d ≠ txC7.amount := by
  constructor
  · exact ⟨rfl, rfl, rfl⟩
  · have h : (enrich emptyStore 0 txC7).1.avg_amount_7d =
        round2 (10001 / 1000) := by
      simp [enrich, zrangebyscore, emptyStore, txC7]
    rw [h]
    norm_num [txC7, round2, roundHalfEven]

/-- Witness for `cold_start` at the concrete no-history input. -/
theorem cold_start_witness :
    (enrich emptyStore 0 txC7).1.time_since_last_txn = 99999 ∧
    (enrich emptyStore 0 txC7).1.new_merchant_flag = 1 ∧
    (enrich emptyStore 0 txC7).1.geo_jump = 0 ∧
    (enrich emptyStore 0 txC7).1.avg_amount_7d = round2 txC7.amount ∧
    (enrich emptyStore 0 txC7).1.amount_deviation = 0 :=
  cold_start emptyStore 0 txC7 (by decide)

/-- A sequence of `_store_transaction` calls, each tagged with the
wall-clock instant at which it executed, applied in order. -/
def applyAppends (evs : List (ℚ × Txn)) (s : HistoryStore) : HistoryStore :=
  evs.foldl (fun acc p => store_transaction acc p.1 p.2) s

lemma applyAppends_nil (s : HistoryStore) : applyAppends [] s = s := rfl

lemma applyAppends_cons (p : ℚ × Txn) (evs : List (ℚ × Txn))
    (s : HistoryStore) :
    applyAppends (p :: evs) s =
      applyAppends evs (store_transaction s p.1 p.2) := rfl

lemma zaddList_of_fresh (l : List (String × ℚ)) (m : String) (sc : ℚ)
    (h : ∀ e ∈ l, e.1 ≠ m) : zaddList l m sc = l ++ [(m, sc)] := by
  unfold zaddList
  rw [List.filter_eq_self.mpr]
  intro e he
  simpa using h e he

lemma index_applyAppends (evs : List (ℚ × Txn)) (s : HistoryStore) (u : String)
    (hdist : evs.Pairwise
      (fun p q => p.2.transaction_id ≠ q.2.transaction_id))
    (hfresh : ∀ p ∈ evs, ∀ e ∈ s.index p.2.user_id,
      e.1 ≠ p.2.transaction_id) :
    (applyAppends evs s).index u =
      s.index u ++ (evs.filter (fun p => p.2.user_id == u)).map
        (fun p => (p.2.transaction_id, p.2.ts)) := by
  induction evs generalizing s with
  | nil => simp [applyAppends_nil]
  | cons p evs ih =>
    rw [applyAppends_cons]
    have hhead := (List.pairwise_cons.mp hdist).1
    have hdist2 := (List.pairwise_cons.mp hdist).2
    have hfreshp := hfresh p (List.mem_cons_self _ _)
    have hfresh2 : ∀ q ∈ evs,
        ∀ e ∈ (store_transaction s p.1 p.2).index q.2.user_id,
        e.1 ≠ q.2.transaction_id := by
      intro q hq e he
      rw [st_index] at he
      by_cases hv : q.2.user_id = p.2.user_id
      · rw [if_pos hv] at he
        unfold zaddList at he
        rcases List.mem_append.mp he with h1 | h1
        · exact hfresh q (List.mem_cons_of_mem _ hq) e
            (List.mem_of_mem_filter h1)
        · have he2 : e = (p.2.transaction_id, p.2.ts) := by simpa using h1
          rw [he2]
          exact hhead q hq
      · rw [if_neg hv] at he
        exact hfresh q (List.mem_cons_of_mem _ hq) e he
    rw [ih (store_transaction s p.1 p.2) hdist2 hfresh2, st_index]
    by_cases hu2 : u = p.2.user_id
    · rw [if_pos hu2,
        zaddList_of_fresh _ _ _ (fun e he => hfreshp e (by rw [← hu2]; exact he))]
      have hbeq : (p.2.user_id == u) = true := by simp [hu2]
      have hfc : (p :: evs).filter (fun q => q.2.user_id == u) =
          p :: evs.filter (fun q => q.2.user_id == u) := by
        simp [List.filter_cons, hbeq]
      rw [hfc]
      simp
    · rw [if_neg hu2]
      have hne : (p.2.user_id == u) = false := by
        simp only [beq_eq_false_iff_ne]
        exact fun hc => hu2 hc.symm
      have hfc : (p :: evs).filter (fun q => q.2.user_id == u) =
          evs.filter (fun q => q.2.user_id == u) := by
        simp [List.filter_cons, hne]
      rw [hfc]

/-- Membership of a transaction of entity `t.user_id` in the closed
window `[t.ts - w, t.ts]` (both endpoints included). -/
def inWindowClosed (t : Txn) (w : ℚ) (p : ℚ × Txn) : Bool :=
  p.2.user_id == t.user_id && decide (t.ts - w ≤ p.2.ts) &&
    decide (p.2.ts ≤ t.ts)

/-- C1 (amended): over any history built by appending transactions with
pairwise-distinct ids, the window counts returned by `enrich` equal the
number of previously appended transactions of the entity with timestamp
in the **closed** interval `[T - w, T]`: `ZRANGEBYSCORE` bounds are
inclusive, so a previously appended transaction at exactly `T` is
counted (only timestamps strictly greater than `T` are excluded). -/
theorem window_counts_closed_interval (evs : List (ℚ × Txn)) (now : ℚ)
    (t : Txn)
    (hdist : evs.Pairwise
      (fun p q => p.2.transaction_id ≠ q.2.transaction_id)) :
    (enrich (applyAppends evs emptyStore) now t).1.txn_count_1h =
      (evs.filter (inWindowClosed t 3600)).length ∧
    (enrich (applyAppends evs emptyStore) now t).1.txn_count_24h =
      (evs.filter (inWindowClosed t 86400)).length := by
  have hidx : (applyAppends evs emptyStore).index t.user_id =
      (evs.filter (fun p => p.2.user_id == t.user_id)).map
        (fun p => (p.2.transaction_id, p.2.ts)) := by
    have h := index_applyAppends evs emptyStore t.user_id hdist
      (by intro p hp e he; simp [emptyStore] at he)
    simpa [emptyStore] using h
  have key : ∀ w : ℚ,
      (zrangebyscore (applyAppends evs emptyStore) t.user_id
        (t.ts - w) t.ts).length =
        (evs.filter (inWindowClosed t w)).length := by
    intro w
    unfold zrangebyscore
    rw [hidx, List.length_map, List.filter_map, List.length_map,
      List.filter_filter]
    congr 1
    apply List.filter_congr
    intro p hp
    simp [inWindowClosed, Function.comp, Bool.and_assoc, Bool.and_comm,
      Bool.and_left_comm]
  exact ⟨key 3600, key 86400⟩

/-- Transaction appended first in the C1 scenario (timestamp 0). -/
def txC1a : Txn :=
  { transaction_id := "c1a", user_id := "u1", ts := 0, hour := 10,
    weekday := 1, amount := 100, merchant_category := "grocery",
    payment_method := "card", country_code := "US" }

/-- Transaction enriched second in the C1 scenario, same entity and the
same timestamp 0. -/
def txC1b : Txn :=
  { transaction_id := "c1b", user_id := "u1", ts := 0, hour := 10,
    weekday := 1, amount := 50, merchant_category := "grocery",
    payment_method := "card", country_code := "US" }

/-- C1 counterexample to the claim as stated: after appending `txC1a`
(timestamp exactly `T = 0`), enriching `txC1b` at `T = 0` reports
`txn_count_1h = 1`, while the claimed half-open window `[T-w, T)` holds
no transaction at all. -/
theorem window_counts_counterexample :
    (enrich (applyAppends [((0 : ℚ), txC1a)] emptyStore) 0
      txC1b).1.txn_count_1h = 1 ∧
    (([((0 : ℚ), txC1a)]).filter
      (fun p => p.2.user_id == txC1b.user_id &&
        decide (txC1b.ts - 3600 ≤ p.2.ts) &&
        decide (p.2.ts < txC1b.ts))).length = 0 := by
  constructor
  · have h : (enrich (applyAppends [((0 : ℚ), txC1a)] emptyStore) 0
        txC1b).1.txn_count_1h =
        (zrangebyscore (applyAppends [((0 : ℚ), txC1a)] emptyStore)
          txC1b.user_id (txC1b.ts - 3600) txC1b.ts).length := rfl
    rw [h]
    have hidx : (applyAppends [((0 : ℚ), txC1a)] emptyStore).index
        txC1b.user_id = [("c1a", (0 : ℚ))] := by
      rw [applyAppends_cons, applyAppends_nil, st_index]
      norm_num [txC1a, txC1b, emptyStore, zaddList]
    unfold zrangebyscore
    rw [hidx]
    norm_num [List.filter_cons, txC1b]
  · norm_num [List.filter_cons, txC1a, txC1b]

/-- Witness for `window_counts_closed_interval` at the concrete
one-append history. -/
theorem window_counts_witness :
    (enrich (applyAppends [((0 : ℚ), txC1a)] emptyStore) 0
      txC1b).1.txn_count_1h =
      (([((0 : ℚ), txC1a)]).filter (inWindowClosed txC1b 3600)).length ∧
    (enrich (applyAppends [((0 : ℚ), txC1a)] emptyStore) 0
      txC1b).1.txn_count_24h =
      (([((0 : ℚ), txC1a)]).filter (inWindowClosed txC1b 86400)).length :=
  window_counts_closed_interval [((0 : ℚ), txC1a)] 0 txC1b (by simp)

lemma mem_fst_zaddList (l : List (String × ℚ)) (m : String) (sc : ℚ)
    (id : String) (h : id ∈ l.map Prod.fst) :
    id ∈ (zaddList l m sc).map Prod.fst := by
  unfold zaddList
  rw [List.map_append]
  by_cases hid : id = m
  · exact List.mem_append_right _ (by simp [hid])
  · apply List.mem_append_left
    rcases List.mem_map.mp h with ⟨e, he, hfst⟩
    exact List.mem_map.mpr
      ⟨e, List.mem_filter.mpr ⟨he, by simp [hfst, hid]⟩, hfst⟩

/-- C4 (amended): the per-entity time index is never trimmed — once a
transaction id is in an entity's index, it is still there after any
further sequence of appends, no matter how much wall-clock or event
time has passed (`_store_transaction` only `ZADD`s and never sets a TTL
on the sorted set), so the index retains ids older than the 7-day
horizon and grows without bound. -/
theorem index_never_trimmed (s : HistoryStore) (evs : List (ℚ × Txn))
    (u id : String) (h : id ∈ (s.index u).map Prod.fst) :
    id ∈ ((applyAppends evs s).index u).map Prod.fst := by
  induction evs generalizing s with
  | nil => exact h
  | cons p evs ih =>
    rw [applyAppends_cons]
    apply ih
    rw [st_index]
    by_cases hu : u = p.2.user_id
    · rw [if_pos hu]; exact mem_fst_zaddList _ _ _ _ h
    · rw [if_neg hu]; exact h

/-- The C4 transaction, appended at time 0. -/
def txC4 : Txn :=
  { transaction_id := "t4", user_id := "u4", ts := 0, hour := 1,
    weekday := 3, amount := 20, merchant_category := "fuel",
    payment_method := "card", country_code := "US" }

/-- A later transaction of the same entity, appended at wall-clock
1500000. -/
def txC4b : Txn :=
  { transaction_id := "t4b", user_id := "u4", ts := 1500000, hour := 2,
    weekday := 4, amount := 30, merchant_category := "fuel",
    payment_method := "card", country_code := "US" }

/-- C4 counterexample to the claim as stated: at query time
`T = 2000000` (more than 7 days after `txC4.ts = 0`), `txC4`'s id is
still in `u4`'s time index although its timestamp is older than
`T - horizon` — the index does not contain "exactly" the transactions
within the retention horizon. -/
theorem index_never_trimmed_counterexample :
    "t4" ∈ (((applyAppends [((1500000 : ℚ), txC4b)]
      (store_transaction emptyStore 0 txC4)).index "u4").map Prod.fst) ∧
    ¬ ((2000000 : ℚ) - HORIZON ≤ txC4.ts) := by
  constructor
  · have h1 : (store_transaction emptyStore 0 txC4).index "u4" =
        [("t4", (0 : ℚ))] := by
      rw [st_index]
      norm_num [txC4, emptyStore, zaddList]
    rw [applyAppends_cons, applyAppends_nil, st_index]
    norm_num [txC4b, h1, zaddList, List.filter_cons]
    decide
  · norm_num [HORIZON, txC4]

/-- Witness for `index_never_trimmed` at the concrete two-append
history. -/
theorem index_never_trimmed_witness :
    "t4" ∈ (((applyAppends [((1500000 : ℚ), txC4b)]
      (store_transaction emptyStore 0 txC4)).index "u4").map Prod.fst) :=
  index_never_trimmed (store_transaction emptyStore 0 txC4)
    [((1500000 : ℚ), txC4b)] "u4" "t4"
    (by rw [st_index]; norm_num [txC4, emptyStore, zaddList])

/-- The acknowledgments emitted inside the categorical-encoding loop of
the consumer's per-entry `try` block (`consumer.py`): for each encoder
column present in the model input whose value is not among the
encoder's classes, the loop logs "skipping", calls `r.xack` for the
entry, and `continue`s — which advances the **encoder-column** loop,
not the entry loop.  `encoders` maps each column to its known classes;
`vals` gives the model input's value for a column (`none` when the
column is not in the model input). -/
def encodeLoopAcks (encoders : List (String × List String))
    (vals : String → Option String) : ℕ :=
  encoders.countP (fun e => match vals e.1 with
    | some v => decide (v ∉ e.2)
    | none => false)

/-- Total acknowledgments sent for one claimed entry by the per-entry
`try/except` (transport healthy): the encode-loop acks, plus exactly one
more, because after the encoding loop control either completes the `try`
body and reaches the success `r.xack`, or raises (`restRaises`, e.g. the
model rejecting a still-unencoded string column) and reaches the
`except` handler's `r.xack`. -/
def entryAckCount (encoders : List (String × List String))
    (vals : String → Option String) (restRaises : Bool) : ℕ :=
  encodeLoopAcks encoders vals + (if restRaises then 1 else 1)

/-- The encoder artifacts of the C3 scenario. -/
def encodersC3 : List (String × List String) :=
  [("merchant_category", ["grocery", "electronics", "fuel"]),
   ("payment_method", ["card", "bank_transfer"]),
   ("country_code", ["US", "GB"])]

/-- A model input whose `merchant_category` value is unknown to its
encoder and whose other categorical values are known. -/
def valsC3 : String → Option String := fun c =>
  if c = "merchant_category" then some "crypto"
  else if c = "payment_method" then some "card"
  else if c = "country_code" then some "US"
  else none

/-- C3: an entry with one unknown categorical value is acknowledged
TWICE — once by the unknown-category branch and once more by the final
success ack or the per-entry error handler, because `continue` only
skips to the next encoder column — whether or not the remaining
processing raises. -/
theorem unknown_category_double_ack :
    entryAckCount encodersC3 valsC3 true = 2 ∧
    entryAckCount encodersC3 valsC3 false = 2 := by
  constructor <;> decide

/-- Outcome of one pass of the consumer loop over one claimed entry. -/
inductive PassOutcome where
  | acked
  | backoff
deriving DecidableEq, Repr

/-- One pass over a claimed entry when the Redis connection backing the
history store can fail: `enrichOk` is the store's availability during
`feature_engine.enrich`, `ackOk` its availability at the subsequent
`r.xack`.  A failed `enrich` raises into the per-entry
`except Exception` handler, which logs and then itself calls `r.xack`;
an `xack` on a dead connection raises `ConnectionError` out of the entry
loop into the outer handler, which sleeps and retries the claim. -/
def handleClaimedEntry (enrichOk ackOk : Bool) : PassOutcome :=
  if enrichOk then
    if ackOk then .acked else .backoff
  else
    if ackOk then .acked else .backoff

/-- The pending-entries set after one pass: an acknowledged entry leaves
the pending set; a pass that escalated to the outer backoff handler
leaves the entry pending, to be re-attempted on a later pass. -/
def processPass (pending : List String) (msgId : String)
    (enrichOk ackOk : Bool) : List String :=
  match handleClaimedEntry enrichOk ackOk with
  | .acked => pending.filter (fun m => !(m == msgId))
  | .backoff => pending

/-- C2 counterexample to the claim as stated: the store fails during
`enrich` but has recovered by the time the handler's `r.xack` runs —
the entry IS acknowledged and leaves the pending set (dropped without
ever being scored), where the claim requires it to stay pending. -/
theorem store_error_ack_counterexample :
    handleClaimedEntry false true = PassOutcome.acked ∧
    "m1" ∉ processPass ["m1"] "m1" false true := by
  decide

/-- C2 (amended): when the history store is unavailable during feature
computation, the catch-all per-entry handler still attempts to
acknowledge the entry; the entry remains pending (and is re-attempted on
a later pass, after the outer backoff) only when that acknowledgment
call itself also fails, and is acknowledged and dropped whenever the
acknowledgment succeeds. -/
theorem store_error_pass (pending : List String) (m : String)
    (_h : m ∈ pending) :
    processPass pending m false false = pending ∧
    m ∉ processPass pending m false true := by
  refine ⟨rfl, ?_⟩
  simp [processPass, handleClaimedEntry]

/-- Witness for `store_error_pass` at a concrete pending set. -/
theorem store_error_pass_witness :
    processPass ["m1"] "m1" false false = ["m1"] ∧
    "m1" ∉ processPass ["m1"] "m1" false true :=
  store_error_pass ["m1"] "m1" (by decide)

/-- The decision ladder of the consumer loop
(`consumer.py`: `ALLOW`, overridden to `BLOCK` when
`prob >= threshold`, else to `REVIEW` when `prob >= threshold * 0.7`). -/
def consumerDecision (prob threshold : ℚ) : String :=
  if prob ≥ threshold then "BLOCK"
  else if prob ≥ threshold * 0.7 then "REVIEW"
  else "ALLOW"

/-- The decision ladder of the HTTP `/predict` endpoint (`app.py`),
textually the same ladder as the consumer's. -/
def apiDecision (prob threshold : ℚ) : String :=
  if prob ≥ threshold then "BLOCK"
  else if prob ≥ threshold * 0.7 then "REVIEW"
  else "ALLOW"

/-- C8: the stream consumer and the HTTP prediction endpoint apply the
same decision policy, and that policy is: BLOCK iff `p ≥ threshold`,
REVIEW iff `threshold*0.7 ≤ p < threshold`, ALLOW in every remaining
case. -/
theorem decision_policy (p t : ℚ) :
    apiDecision p t = consumerDecision p t ∧
    (consumerDecision p t = "BLOCK" ↔ p ≥ t) ∧
    (consumerDecision p t = "REVIEW" ↔ t * 0.7 ≤ p ∧ p < t) ∧
    (consumerDecision p t = "ALLOW" ↔ ¬(p ≥ t) ∧ ¬(t * 0.7 ≤ p ∧ p < t)) := by
  unfold apiDecision consumerDecision
  split_ifs with h1 h2 <;> refine ⟨rfl, ?_, ?_, ?_⟩ <;> simp_all
